import Mathlib

/-
Verification development for xpi-util (src/mod.ts), a Deno/TypeScript utility
that reads identity metadata (id, name, version) out of a browser-extension
package (an unpacked directory or an .xpi archive) and packages a directory
into an archive named after the validated extension identifier.

The TypeScript source is shallowly embedded:
  * JS runtime values that flow through the manifest-extraction code are
    modelled by `JSValue` (JSON values plus `undefined`).
  * A thrown JS exception is modelled by the `Except` error channel `Thrown`.
  * `JSON.parse` is an external collaborator; a manifest document is modelled
    up to parsing by `ManifestDoc` (either text the parser rejects, or text
    together with the `JSValue` the parser yields for it).
  * The filesystem and zip collaborators are modelled by the explicit `FS`
    environment; whether the zip reader handle was opened/closed is recorded
    in the `Traced` wrapper.
-/

/-- Model of a JS runtime value as produced by JSON.parse, extended with
`undefined`, which JSON.parse never returns but property access does. -/
inductive JSValue : Type where
  | undefined : JSValue
  | null : JSValue
  | bool : Bool → JSValue
  | num : Int → JSValue
  | str : String → JSValue
  | arr : List JSValue → JSValue
  | obj : List (String × JSValue) → JSValue

/-- JS truthiness (`if (x)`, `x || y`): undefined, null, false, 0 and the
empty string are falsy, every other value is truthy.  (NaN is not modelled;
no value in this code can be NaN.) -/
def JSValue.truthy : JSValue → Bool
  | .undefined => false
  | .null => false
  | .bool b => b
  | .num n => n != 0
  | .str s => s != ""
  | .arr _ => true
  | .obj _ => true

/-- JS string coercion, used where the source concatenates or regex-tests a
value.  Array/object element joining is not needed by any manifest field the
claims touch, so arrays coerce to their JS placeholder only shallowly. -/
def JSValue.toJSString : JSValue → String
  | .undefined => "undefined"
  | .null => "null"
  | .bool b => if b then "true" else "false"
  | .num n => toString n
  | .str s => s
  | .arr _ => ""
  | .obj _ => "[object Object]"

/-- JS `a || b`. -/
def JSValue.orJS (a b : JSValue) : JSValue := if a.truthy then a else b

/-- A thrown JS exception is carried as its message string. -/
abbrev JSError := String

/-- Computation that may end in a thrown, uncaught JS exception. -/
abbrev Thrown (α : Type) := Except JSError α

/-- Did the computation end in a thrown exception? -/
def isThrown {α : Type} : Thrown α → Bool
  | .error _ => true
  | .ok _ => false

/-- JS property access `v.k`: throws a TypeError on null/undefined, yields the
field (or undefined) on objects, and undefined on every other value. -/
def JSValue.getProp (v : JSValue) (k : String) : Thrown JSValue :=
  match v with
  | .undefined => .error ("TypeError: cannot read properties of undefined, reading " ++ k)
  | .null => .error ("TypeError: cannot read properties of null, reading " ++ k)
  | .obj fields =>
      .ok (((fields.find? (fun f => f.1 == k)).map (fun f => f.2)).getD .undefined)
  | _ => .ok .undefined

/-- A manifest document text, modelled up to JSON parsing: either text that
JSON.parse rejects, or text whose parse yields the given value. -/
inductive ManifestDoc : Type where
  | malformed : String → ManifestDoc
  | wellFormed : JSValue → ManifestDoc

/-- The JSON.parse collaborator: throws a SyntaxError on malformed text. -/
def JSON.parse : ManifestDoc → Thrown JSValue
  | .malformed t => .error ("SyntaxError: unexpected token in JSON: " ++ t)
  | .wellFormed v => .ok v

/- ### IdentifierValidator (src/mod.ts lines 53-58)

`isValidAOMAddonId` tests the anchored case-insensitive regex
  (braced UUID | email-like token)
against its argument.  The regex is translated character class by character
class; the `i` flag widens each letter range to both cases. -/

/-- Character class `[0-9a-f]` under the case-insensitive flag. -/
def isHexDigit (c : Char) : Bool :=
  decide (('0' ≤ c ∧ c ≤ '9') ∨ ('a' ≤ c ∧ c ≤ 'f') ∨ ('A' ≤ c ∧ c ≤ 'F'))

/-- Character class `[a-z0-9-._]` under the case-insensitive flag. -/
def isIdChar (c : Char) : Bool :=
  decide (('a' ≤ c ∧ c ≤ 'z') ∨ ('A' ≤ c ∧ c ≤ 'Z') ∨ ('0' ≤ c ∧ c ≤ '9') ∨
    c = '-' ∨ c = '.' ∨ c = '_')

/-- Consume exactly `n` hex digits, returning the rest of the input. -/
def takeHex : Nat → List Char → Option (List Char)
  | 0, cs => some cs
  | _ + 1, [] => none
  | n + 1, c :: cs => if isHexDigit c then takeHex n cs else none

/-- Consume exactly the character `c`, returning the rest of the input. -/
def expectChar (c : Char) : List Char → Option (List Char)
  | [] => none
  | x :: xs => if x = c then some xs else none

/-- The regex tail `[0-9a-f]{8}-[0-9a-f]{4}-[0-9a-f]{4}-[0-9a-f]{4}-[0-9a-f]{12}\x7d`
after the opening brace. -/
def matchUUIDTail (cs : List Char) : Option (List Char) :=
  (takeHex 8 cs).bind fun r =>
  (expectChar '-' r).bind fun r =>
  (takeHex 4 r).bind fun r =>
  (expectChar '-' r).bind fun r =>
  (takeHex 4 r).bind fun r =>
  (expectChar '-' r).bind fun r =>
  (takeHex 4 r).bind fun r =>
  (expectChar '-' r).bind fun r =>
  (takeHex 12 r).bind fun r =>
  expectChar '\x7d' r

/-- The braced-UUID alternative of the regex, anchored on both sides. -/
def matchesBracedUUID : List Char → Bool
  | [] => false
  | c :: rest => c == '\x7b' && matchUUIDTail rest == some []

/-- Consume `[a-z0-9-._]*\@` (deterministic: the class excludes `@`),
returning the rest of the input. -/
def matchLocal : List Char → Option (List Char)
  | [] => none
  | c :: rest => if c = '@' then some rest else if isIdChar c then matchLocal rest else none

/-- The email-like alternative `[a-z0-9-._]*\@[a-z0-9-._]+`, anchored. -/
def matchesEmailLike (cs : List Char) : Bool :=
  match matchLocal cs with
  | none => false
  | some r => !r.isEmpty && r.all isIdChar

/-- src/mod.ts lines 53-58: the identifier validator.  The `s || ""` guard in
the source is the identity on actual strings (it only rewrites a falsy
argument, and the only falsy string is `""` itself), so the embedding takes a
`String`; callers that may pass `undefined` coerce through `JSValue` first. -/
def isValidAOMAddonId (s : String) : Bool :=
  matchesBracedUUID s.data || matchesEmailLike s.data

/- Spec-side grammar of the two accepted shapes, written structurally (a
decomposition of the character list), to be compared with the executable
matcher translated from the regex. -/

/-- The braced-UUID shape of spec section 4.1, written as a structural
decomposition: brace, five hex runs of lengths 8/4/4/4/12 separated by
dashes, closing brace. -/
def UUIDShape (cs : List Char) : Prop :=
  ∃ a b c d e : List Char,
    a.length = 8 ∧ a.all isHexDigit = true ∧
    b.length = 4 ∧ b.all isHexDigit = true ∧
    c.length = 4 ∧ c.all isHexDigit = true ∧
    d.length = 4 ∧ d.all isHexDigit = true ∧
    e.length = 12 ∧ e.all isHexDigit = true ∧
    cs = '\x7b' :: (a ++ '-' :: (b ++ '-' :: (c ++ '-' :: (d ++ '-' :: (e ++ ['\x7d'])))))

/-- The email-like shape of spec section 4.1: zero or more id characters, a
single `@` (the class excludes `@`, so the split is unique), then one or more
id characters. -/
def EmailShape (cs : List Char) : Prop :=
  ∃ l r : List Char,
    l.all isIdChar = true ∧ r.all isIdChar = true ∧ r ≠ [] ∧ cs = l ++ '@' :: r

example : isValidAOMAddonId "foo@bar" = true := by decide
example : isValidAOMAddonId "@myext" = true := by decide
example : isValidAOMAddonId "" = false := by decide
example : isValidAOMAddonId "a@b@c" = false := by decide
example : isValidAOMAddonId "\x7b12345678-1234-1234-1234-123456789012\x7d" = true := by decide
example : isValidAOMAddonId "\x7bABCDEF12-1234-1234-1234-123456789012\x7d" = true := by decide
example : isValidAOMAddonId "\x7b12345678-1234-1234-1234-12345678901\x7d" = false := by decide
example : isValidAOMAddonId "not-an-id" = false := by decide

/- ### Data model (src/mod.ts lines 14-51)

`AddonInfo` is declared in TS with three `string` fields, but the extraction
code stores whatever JS value the manifest held (possibly `undefined`: the
`as string` cast on line 119 erases nothing at runtime), so the embedding
carries `JSValue` fields; the declared type corresponds to the case where all
three are `.str`. -/

structure AddonInfo : Type where
  id : JSValue
  name : JSValue
  version : JSValue

/-- src/mod.ts lines 20-23.  The TS declaration restricts `type` to the union
"dir" | "xpi"; at runtime the field holds whatever string was assigned (the
value reaches it through an `as ExtInfo` cast), so it is embedded as `String`. -/
structure ExtInfo : Type where
  type : String
  info : AddonInfo

/-- src/mod.ts lines 25-51.  The class has two optional private slots; a slot
modelled `none` holds JS `undefined`.  TS generics are erased, and the
parameter of `from_data` has type `T`, which may itself include `undefined`
(for example `T = ExtInfo | undefined`), so the stored payload is modelled as
`Option α` with `none` for an undefined argument. -/
structure Result (α : Type) : Type where
  inner_data : Option α
  error : Option JSError

/-- src/mod.ts lines 29-33: store the error, leave the data slot undefined. -/
def Result.from_error {α : Type} (e : JSError) : Result α := ⟨none, some e⟩

/-- src/mod.ts lines 34-38: store the argument as given, leave the error slot
undefined. -/
def Result.from_data {α : Type} (data : Option α) : Result α := ⟨data, none⟩

/-- src/mod.ts lines 39-41: `inner_data !== undefined`. -/
def Result.is_ok {α : Type} (r : Result α) : Bool := r.inner_data.isSome

/-- src/mod.ts lines 42-44: `error != undefined` (the loose comparison also
rejects null, but the slot only ever holds an Error or undefined). -/
def Result.is_err {α : Type} (r : Result α) : Bool := r.error.isSome

/-- src/mod.ts lines 45-47: returns `T | undefined`. -/
def Result.data {α : Type} (r : Result α) : Option α := r.inner_data

/-- src/mod.ts lines 48-50: returns `Error | undefined`. -/
def Result.err {α : Type} (r : Result α) : Option JSError := r.error

/- ### getID (src/mod.ts lines 60-73) -/

/-- src/mod.ts lines 60-73: two-tier identifier derivation.  `none` models a
returned `undefined`.  The source returns `manifest.id` itself; the regex test
and every downstream use coerce it to a string, so the embedding returns the
coercion (identical when the field is a string, observationally equal to the
source for every other JSON value, whose coercion never validates anyway
except through its coerced string). -/
def getID (manifest : AddonInfo) : Option String :=
  if manifest.id.truthy then
    if isValidAOMAddonId manifest.id.toJSString then some manifest.id.toJSString else none
  else if manifest.name.truthy then
    let id := "@" ++ manifest.name.toJSString
    if isValidAOMAddonId id then some id else none
  else none

/- ### Manifest field extraction

The same fourteen lines appear verbatim three times in the source, inside
readExtInfo (lines 109-123), readXpiInfo (lines 150-163) and parseExtManifest
(lines 179-192).  Each copy is embedded separately under the name of its
enclosing function; claim C10 compares them. -/

/-- src/mod.ts lines 109-123 (the copy inside readExtInfo): take
`(m.browser_specific_settings || \x7b\x7d).gecko || \x7b\x7d).id`; if falsy,
fall back to `((m.applications || \x7b\x7d).gecko || \x7b\x7d).id`; then take
top-level `name` and `version`.  Property access can throw when `m` is
null/undefined. -/
def extractDetails_readExtInfo (m : JSValue) : Thrown AddonInfo := do
  let bss ← m.getProp "browser_specific_settings"
  let gecko ← (bss.orJS (.obj [])).getProp "gecko"
  let id0 ← (gecko.orJS (.obj [])).getProp "id"
  let id ←
    if id0.truthy then pure id0
    else do
      let apps ← m.getProp "applications"
      let gecko2 ← (apps.orJS (.obj [])).getProp "gecko"
      (gecko2.orJS (.obj [])).getProp "id"
  let name ← m.getProp "name"
  let version ← m.getProp "version"
  pure ⟨id, name, version⟩

/-- src/mod.ts lines 150-163: the identical copy inside readXpiInfo. -/
def extractDetails_readXpiInfo (m : JSValue) : Thrown AddonInfo := do
  let bss ← m.getProp "browser_specific_settings"
  let gecko ← (bss.orJS (.obj [])).getProp "gecko"
  let id0 ← (gecko.orJS (.obj [])).getProp "id"
  let id ←
    if id0.truthy then pure id0
    else do
      let apps ← m.getProp "applications"
      let gecko2 ← (apps.orJS (.obj [])).getProp "gecko"
      (gecko2.orJS (.obj [])).getProp "id"
  let name ← m.getProp "name"
  let version ← m.getProp "version"
  pure ⟨id, name, version⟩

/-- src/mod.ts lines 179-192: the identical copy inside parseExtManifest. -/
def extractDetails_parseExtManifest (m : JSValue) : Thrown AddonInfo := do
  let bss ← m.getProp "browser_specific_settings"
  let gecko ← (bss.orJS (.obj [])).getProp "gecko"
  let id0 ← (gecko.orJS (.obj [])).getProp "id"
  let id ←
    if id0.truthy then pure id0
    else do
      let apps ← m.getProp "applications"
      let gecko2 ← (apps.orJS (.obj [])).getProp "gecko"
      (gecko2.orJS (.obj [])).getProp "id"
  let name ← m.getProp "name"
  let version ← m.getProp "version"
  pure ⟨id, name, version⟩

/- ### Filesystem and zip collaborators (spec section 6; out of scope of the
source, modelled at the interface boundary) -/

/-- Contents of a regular file: either bytes that decode to a (manifest
document) text, or a zip archive holding named text entries. -/
inductive FileData : Type where
  | doc : ManifestDoc → FileData
  | zip : List (String × ManifestDoc) → FileData

/-- Reading a file as text: zip bytes decode to garbage that JSON.parse
rejects. -/
def FileData.asText : FileData → ManifestDoc
  | .doc d => d
  | .zip _ => .malformed "zip bytes"

/-- `ZipReader.getEntries`: throws when the bytes are not an archive. -/
def FileData.zipEntries : FileData → Thrown (List (String × ManifestDoc))
  | .doc _ => .error "Error: not a zip archive"
  | .zip es => .ok es

/-- A path names either a regular file or a directory; a directory is the
finite map from the relative paths of the regular files under it (as the walk
collaborator enumerates them) to their contents. -/
inductive PathKind : Type where
  | file : FileData → PathKind
  | dir : List (String × FileData) → PathKind

/-- The filesystem environment of one invocation. -/
structure FS : Type where
  paths : List (String × PathKind)

def FS.lookup (fs : FS) (p : String) : Option PathKind :=
  ((fs.paths.find? (fun e => e.1 == p)).map (fun e => e.2))

/-- `fs.exists(path)`. -/
def FS.exists (fs : FS) (p : String) : Bool := (fs.lookup p).isSome

/-- `Deno.stat(path).isDirectory`: throws NotFound when the path is absent. -/
def FS.stat (fs : FS) (p : String) : Thrown Bool :=
  match fs.lookup p with
  | none => .error ("NotFound: " ++ p)
  | some (.dir _) => .ok true
  | some (.file _) => .ok false

/-- `Deno.readFile(path)` / `Deno.readFileSync(path)`: throws NotFound when
absent and an error when the path is a directory. -/
def FS.readFile (fs : FS) (p : String) : Thrown FileData :=
  match fs.lookup p with
  | none => .error ("NotFound: " ++ p)
  | some (.dir _) => .error ("IsADirectory: " ++ p)
  | some (.file d) => .ok d

/-- `Deno.readFileSync(path.join(dirPath, name))`: look the name up among the
files of the directory; throws NotFound when the directory or entry is
absent. -/
def FS.readDirFile (fs : FS) (dirPath name : String) : Thrown FileData :=
  match fs.lookup dirPath with
  | some (.dir files) =>
      match files.find? (fun f => f.1 == name) with
      | some f => .ok f.2
      | none => .error ("NotFound: " ++ dirPath ++ "/" ++ name)
  | _ => .error ("NotFound: " ++ dirPath ++ "/" ++ name)

/-- The `walk(sourceDir)` collaborator filtered to regular files, as consumed
by packageXpi: the relative-path/content pairs of the directory.  It throws
when the root is absent or not a directory (Deno.readDir raises). -/
def FS.walkFiles (fs : FS) (p : String) : Thrown (List (String × FileData)) :=
  match fs.lookup p with
  | none => .error ("NotFound: " ++ p)
  | some (.file _) => .error ("NotADirectory: " ++ p)
  | some (.dir files) => .ok files

/- ### Public inspection operations (src/mod.ts lines 75-194)

Each returns a `Traced` outcome: the value the returned promise settles with
(`.ok` = resolved, `.error` = rejected with an uncaught exception), together
with whether a `ZipReader` was constructed and whether `zipReader.close()` was
reached during the call. -/

/-- Outcome of a call, with the zip-reader handle log. -/
structure Traced (α : Type) : Type where
  result : Thrown α
  readerOpened : Bool
  readerClosed : Bool

/-- src/mod.ts lines 75-125, `readExtInfo`.  The optional `textDecoder`
argument only chooses the UTF-8 decoder and is dropped.  Control flow is
translated branch by branch; note that `Deno.stat`, `Deno.readFileSync`,
`JSON.parse` and the property accesses are not wrapped in any try/catch, so
their exceptions reject the returned promise. -/
def readExtInfo (fs : FS) (addonPath : String) : Traced (Result ExtInfo) :=
  match fs.stat addonPath with
  | .error e => ⟨.error e, false, false⟩
  | .ok isDir =>
    let type := if isDir then "dir" else "file"
    if isDir then
      match fs.readDirFile addonPath "manifest.json" with
      | .error e => ⟨.error e, false, false⟩
      | .ok fd =>
        match JSON.parse fd.asText with
        | .error e => ⟨.error e, false, false⟩
        | .ok m =>
          match extractDetails_readExtInfo m with
          | .error e => ⟨.error e, false, false⟩
          | .ok details => ⟨.ok (Result.from_data (some ⟨type, details⟩)), false, false⟩
    else
      match fs.readFile addonPath with
      | .error e => ⟨.error e, false, false⟩
      | .ok fd =>
        match fd.zipEntries with
        | .error e => ⟨.error e, true, false⟩
        | .ok entries =>
          match entries.find? (fun en => en.1 == "manifest.json") with
          | none => ⟨.ok (Result.from_error "do not contain manifest.json"), true, false⟩
          | some en =>
            match JSON.parse en.2 with
            | .error e => ⟨.error e, true, true⟩
            | .ok m =>
              match extractDetails_readExtInfo m with
              | .error e => ⟨.error e, true, true⟩
              | .ok details => ⟨.ok (Result.from_data (some ⟨type, details⟩)), true, true⟩

/-- src/mod.ts lines 128-165, `readXpiInfo`: an existence check that returns a
failure Result, then the archive branch of readExtInfo without the stat. -/
def readXpiInfo (fs : FS) (addonPath : String) : Traced (Result AddonInfo) :=
  if fs.exists addonPath = false then
    ⟨.ok (Result.from_error ("path " ++ addonPath ++ " does not exist")), false, false⟩
  else
    match fs.readFile addonPath with
    | .error e => ⟨.error e, false, false⟩
    | .ok fd =>
      match fd.zipEntries with
      | .error e => ⟨.error e, true, false⟩
      | .ok entries =>
        match entries.find? (fun en => en.1 == "manifest.json") with
        | none => ⟨.ok (Result.from_error "do not contain manifest.json"), true, false⟩
        | some en =>
          match JSON.parse en.2 with
          | .error e => ⟨.error e, true, true⟩
          | .ok m =>
            match extractDetails_readXpiInfo m with
            | .error e => ⟨.error e, true, true⟩
            | .ok details => ⟨.ok (Result.from_data (some details)), true, true⟩

/-- src/mod.ts lines 168-194, `parseExtManifest`: an existence check that
returns a failure Result, then readFileSync + JSON.parse + extraction, none of
it wrapped in try/catch.  No zip reader is involved. -/
def parseExtManifest (fs : FS) (p : String) : Thrown (Result AddonInfo) :=
  if fs.exists p = false then
    .ok (Result.from_error ("path " ++ p ++ " does not exist"))
  else
    match fs.readFile p with
    | .error e => .error e
    | .ok fd =>
      match JSON.parse fd.asText with
      | .error e => .error e
      | .ok m =>
        match extractDetails_parseExtManifest m with
        | .error e => .error e
        | .ok details => .ok (Result.from_data (some details))

/- ### packageXpi (src/mod.ts lines 201-233) -/

/-- JS `targetFolder || Deno.cwd()`: an absent or empty target folder falls
back to the current working directory. -/
def jsOrStr (a : Option String) (b : String) : String :=
  match a with
  | some s => if s = "" then b else s
  | none => b

/-- `path.join` as used on line 229. -/
def pathJoin (a b : String) : String := a ++ "/" ++ b

/-- Observable outcome of a packageXpi call: the value the promise settles
with (`.ok ()` models a resolution with `undefined` — the function has no
return value in the source), and the single `Deno.writeFile` effect, if it
was reached, as target path and archive entries. -/
structure PackageOutcome : Type where
  result : Thrown Unit
  written : Option (String × List (String × FileData))

/-- src/mod.ts lines 201-233, `packageXpi`.  `cwd` stands for `Deno.cwd()`;
the `textDecoder` argument is dropped as in readExtInfo.  The walk loop adds
every regular file under `sourceDir` to the in-memory archive under its
relative path; then the source directory is inspected, the id derived, and
only then is the archive written to disk.  Every `return;` in the source is a
`.ok ()` with no write. -/
def packageXpi (fs : FS) (sourceDir : String) (targetFolder : Option String)
    (cwd : String) : PackageOutcome :=
  match fs.walkFiles sourceDir with
  | .error e => ⟨.error e, none⟩
  | .ok files =>
    match (readExtInfo fs sourceDir).result with
    | .error e => ⟨.error e, none⟩
    | .ok info_result =>
      if info_result.is_err then ⟨.ok (), none⟩
      else
        match info_result.inner_data with
        | none =>
            ⟨.error "TypeError: cannot read properties of undefined, reading info", none⟩
        | some ext =>
          match getID ext.info with
          | none => ⟨.ok (), none⟩
          | some fileNamePre =>
            if fileNamePre = "" then ⟨.ok (), none⟩
            else
              let fileName := fileNamePre ++ ".xpi"
              let target := pathJoin (jsOrStr targetFolder cwd) fileName
              ⟨.ok (), some (target, files)⟩

/-- The identifier packageXpi derives for a source directory, when inspection
succeeds and getID produces a truthy value; `none` on every failure path
(thrown inspection, failure Result, undefined data slot, or falsy id). -/
def derivedId (fs : FS) (src : String) : Option String :=
  match (readExtInfo fs src).result with
  | .error _ => none
  | .ok r =>
    if r.is_err then none
    else
      match r.inner_data with
      | none => none
      | some ext =>
        match getID ext.info with
        | none => none
        | some s => if s = "" then none else some s

/- ### Lemmas: the regex matcher against the structural grammar -/

theorem expectChar_eq_some (c : Char) (cs rest : List Char) :
    expectChar c cs = some rest ↔ cs = c :: rest := by
  cases cs with
  | nil => simp [expectChar]
  | cons x xs =>
    simp only [expectChar]
    by_cases h : x = c
    · subst h
      simp [List.cons.injEq]
    · simp [List.cons.injEq, h]

theorem takeHex_eq_some (n : Nat) (cs rest : List Char) :
    takeHex n cs = some rest ↔
      ∃ pre : List Char, pre.length = n ∧ pre.all isHexDigit = true ∧ cs = pre ++ rest := by
  induction n generalizing cs with
  | zero =>
    simp only [takeHex]
    constructor
    · intro h
      injection h with h
      subst h
      exact ⟨[], rfl, rfl, rfl⟩
    · rintro ⟨pre, hlen, -, rfl⟩
      have hp : pre = [] := List.length_eq_zero.mp hlen
      subst hp
      rfl
  | succ n ih =>
    cases cs with
    | nil =>
      simp only [takeHex]
      constructor
      · intro h
        cases h
      · rintro ⟨pre, hlen, -, hcs⟩
        cases pre with
        | nil => cases hlen
        | cons a l => cases hcs
    | cons c cs =>
      simp only [takeHex]
      by_cases hc : isHexDigit c = true
      · rw [if_pos hc, ih]
        constructor
        · rintro ⟨pre, hlen, hall, rfl⟩
          exact ⟨c :: pre, by simp [hlen], by simp [List.all_cons, hc, hall], rfl⟩
        · rintro ⟨pre, hlen, hall, hcs⟩
          cases pre with
          | nil => cases hlen
          | cons a l =>
            injection hcs with h1 h2
            subst h1
            simp only [List.all_cons, Bool.and_eq_true] at hall
            exact ⟨l, by simpa using hlen, hall.2, h2⟩
      · rw [if_neg hc]
        constructor
        · intro h
          cases h
        · rintro ⟨pre, hlen, hall, hcs⟩
          cases pre with
          | nil => cases hlen
          | cons a l =>
            injection hcs with h1 h2
            subst h1
            simp only [List.all_cons, Bool.and_eq_true] at hall
            exact absurd hall.1 hc

theorem matchUUIDTail_eq_some_nil (cs : List Char) :
    matchUUIDTail cs = some [] ↔
      ∃ a b c d e : List Char,
        a.length = 8 ∧ a.all isHexDigit = true ∧
        b.length = 4 ∧ b.all isHexDigit = true ∧
        c.length = 4 ∧ c.all isHexDigit = true ∧
        d.length = 4 ∧ d.all isHexDigit = true ∧
        e.length = 12 ∧ e.all isHexDigit = true ∧
        cs = a ++ '-' :: (b ++ '-' :: (c ++ '-' :: (d ++ '-' :: (e ++ ['\x7d'])))) := by
  simp only [matchUUIDTail, Option.bind_eq_some, takeHex_eq_some, expectChar_eq_some]
  constructor
  · rintro ⟨r1, ⟨a, ha, haH, rfl⟩, r2, rfl, r3, ⟨b, hb, hbH, rfl⟩, r4, rfl,
      r5, ⟨c, hc, hcH, rfl⟩, r6, rfl, r7, ⟨d, hd, hdH, rfl⟩, r8, rfl, r9, ⟨e, he, heH, rfl⟩, rfl⟩
    exact ⟨a, b, c, d, e, ha, haH, hb, hbH, hc, hcH, hd, hdH, he, heH, rfl⟩
  · rintro ⟨a, b, c, d, e, ha, haH, hb, hbH, hc, hcH, hd, hdH, he, heH, rfl⟩
    exact ⟨_, ⟨a, ha, haH, rfl⟩, _, rfl, _, ⟨b, hb, hbH, rfl⟩, _, rfl,
      _, ⟨c, hc, hcH, rfl⟩, _, rfl, _, ⟨d, hd, hdH, rfl⟩, _, rfl, _, ⟨e, he, heH, rfl⟩, rfl⟩

theorem matchesBracedUUID_iff (cs : List Char) :
    matchesBracedUUID cs = true ↔ UUIDShape cs := by
  cases cs with
  | nil =>
    simp only [matchesBracedUUID, UUIDShape]
    constructor
    · intro h
      cases h
    · rintro ⟨a, b, c, d, e, -, -, -, -, -, -, -, -, -, -, h⟩
      cases h
  | cons x rest =>
    simp only [matchesBracedUUID, Bool.and_eq_true, beq_iff_eq, matchUUIDTail_eq_some_nil,
      UUIDShape]
    constructor
    · rintro ⟨rfl, a, b, c, d, e, ha, haH, hb, hbH, hc, hcH, hd, hdH, he, heH, rfl⟩
      exact ⟨a, b, c, d, e, ha, haH, hb, hbH, hc, hcH, hd, hdH, he, heH, rfl⟩
    · rintro ⟨a, b, c, d, e, ha, haH, hb, hbH, hc, hcH, hd, hdH, he, heH, h⟩
      injection h with h1 h2
      subst h1
      exact ⟨rfl, a, b, c, d, e, ha, haH, hb, hbH, hc, hcH, hd, hdH, he, heH, h2⟩

theorem matchLocal_eq_some (cs r : List Char) :
    matchLocal cs = some r ↔ ∃ l, l.all isIdChar = true ∧ cs = l ++ '@' :: r := by
  induction cs with
  | nil =>
    simp only [matchLocal]
    constructor
    · intro h
      cases h
    · rintro ⟨l, -, h⟩
      cases l with
      | nil => cases h
      | cons a l => cases h
  | cons c cs ih =>
    simp only [matchLocal]
    by_cases hat : c = '@'
    · subst hat
      rw [if_pos rfl]
      constructor
      · intro h
        injection h with h
        subst h
        exact ⟨[], rfl, rfl⟩
      · rintro ⟨l, hall, hc⟩
        cases l with
        | nil =>
          injection hc with h1 h2
          rw [h2]
        | cons a l =>
          injection hc with h1 h2
          subst h1
          simp only [List.all_cons, Bool.and_eq_true] at hall
          exact absurd hall.1 (by decide)
    · rw [if_neg hat]
      by_cases hid : isIdChar c = true
      · rw [if_pos hid, ih]
        constructor
        · rintro ⟨l, hall, rfl⟩
          exact ⟨c :: l, by simp [List.all_cons, hid, hall], rfl⟩
        · rintro ⟨l, hall, hc⟩
          cases l with
          | nil =>
            injection hc with h1 h2
            exact absurd h1 hat
          | cons a l =>
            injection hc with h1 h2
            subst h1
            simp only [List.all_cons, Bool.and_eq_true] at hall
            exact ⟨l, hall.2, h2⟩
      · rw [if_neg hid]
        constructor
        · intro h
          cases h
        · rintro ⟨l, hall, hc⟩
          cases l with
          | nil =>
            injection hc with h1 h2
            exact absurd h1 hat
          | cons a l =>
            injection hc with h1 h2
            subst h1
            simp only [List.all_cons, Bool.and_eq_true] at hall
            exact absurd hall.1 hid

theorem matchesEmailLike_iff (cs : List Char) :
    matchesEmailLike cs = true ↔ EmailShape cs := by
  simp only [matchesEmailLike]
  cases h : matchLocal cs with
  | none =>
    constructor
    · intro hh
      cases hh
    · rintro ⟨l, r, hl, hr, hne, rfl⟩
      have hs := (matchLocal_eq_some (l ++ '@' :: r) r).mpr ⟨l, hl, rfl⟩
      rw [h] at hs
      cases hs
  | some r =>
    rw [matchLocal_eq_some] at h
    obtain ⟨l, hl, rfl⟩ := h
    simp only [Bool.and_eq_true, Bool.not_eq_true']
    constructor
    · rintro ⟨hne, hall⟩
      refine ⟨l, r, hl, hall, ?_, rfl⟩
      intro hr
      subst hr
      cases hne
    · rintro ⟨l2, r2, hl2, hr2, hne2, heq⟩
      have hs := (matchLocal_eq_some (l ++ '@' :: r) r2).mpr ⟨l2, hl2, heq⟩
      have hs2 := (matchLocal_eq_some (l ++ '@' :: r) r).mpr ⟨l, hl, rfl⟩
      rw [hs] at hs2
      injection hs2 with hs2
      subst hs2
      refine ⟨?_, hr2⟩
      cases r2 with
      | nil => exact absurd rfl hne2
      | cons a l3 => rfl

/- ### Concrete fixtures -/

/-- Is a JS value exactly `undefined`? -/
def JSValue.isUndefined : JSValue → Bool
  | .undefined => true
  | _ => false

/-- A well-formed manifest with a valid explicit gecko id. -/
def goodManifest : JSValue :=
  .obj [("browser_specific_settings", .obj [("gecko", .obj [("id", .str "ext@example.com")])]),
        ("name", .str "Test"), ("version", .str "1.0")]

/-- A well-formed manifest with neither a gecko id nor a name. -/
def emptyManifest : JSValue := .obj []

/-- A source directory whose manifest carries a valid id. -/
def fsGoodDir : FS :=
  ⟨[("src", .dir [("manifest.json", .doc (.wellFormed goodManifest)),
                  ("content.js", .doc (.malformed "console"))])]⟩

/-- A source directory whose manifest has neither id nor name. -/
def fsEmptyDir : FS := ⟨[("src", .dir [("manifest.json", .doc (.wellFormed emptyManifest))])]⟩

/-- A source directory whose manifest.json is not valid JSON. -/
def fsBadJsonDir : FS := ⟨[("src", .dir [("manifest.json", .doc (.malformed "not json"))])]⟩

/-- An archive file containing a good manifest entry. -/
def fsXpiGood : FS :=
  ⟨[("addon.xpi", .file (.zip [("manifest.json", .wellFormed goodManifest)]))]⟩

/-- An archive file with no manifest.json entry. -/
def fsXpiNoManifest : FS :=
  ⟨[("addon.xpi", .file (.zip [("other.txt", .malformed "x")]))]⟩

/- ### Claim theorems -/

/-- C1: for every AddonInfo with string fields, getID follows the two-tier
precedence exactly: a non-empty id is returned iff the validator accepts it
and is never replaced by the name fallback; with an empty id and a non-empty
name, the synthesized candidate "@" ++ name is returned iff the validator
accepts it; with both empty the result is undefined. -/
theorem getID_two_tier_precedence (id name version : String) :
    getID ⟨.str id, .str name, .str version⟩ =
      (if id ≠ "" then (if isValidAOMAddonId id then some id else none)
       else if name ≠ "" then
         (if isValidAOMAddonId ("@" ++ name) then some ("@" ++ name) else none)
       else none) := by
  by_cases hid : id = ""
  · subst hid
    by_cases hname : name = ""
    · subst hname
      simp [getID, JSValue.truthy, JSValue.toJSString]
    · simp [getID, JSValue.truthy, JSValue.toJSString, hname]
  · simp [getID, JSValue.truthy, JSValue.toJSString, hid]

/-- C2: the identifier validator is a total Boolean predicate accepting
exactly the two case-insensitive shapes of the spec grammar — a braced UUID
(8-4-4-4-12 hex digits in braces) or an email-like token (zero or more
characters of the id class, one `@`, one or more characters of the id
class) — and rejecting the empty string and everything else. -/
theorem isValidAOMAddonId_characterization :
    (∀ s : String, isValidAOMAddonId s = true ↔ (UUIDShape s.data ∨ EmailShape s.data)) ∧
    isValidAOMAddonId "" = false := by
  refine ⟨fun s => ?_, by decide⟩
  simp only [isValidAOMAddonId, Bool.or_eq_true, matchesBracedUUID_iff, matchesEmailLike_iff]

/-- C3 counterexample: on a directory whose manifest.json is not valid JSON,
readExtInfo does not return a failure Result — the JSON.parse exception
escapes the public boundary and rejects the promise. -/
theorem readExtInfo_parse_error_escapes :
    isThrown (readExtInfo fsBadJsonDir "src").result = true := rfl

/-- C3 (amended): readXpiInfo and parseExtManifest report a missing input
path as a failure Result with a descriptive message (and the archive readers
report a missing manifest entry likewise), but JSON-parse failures — and, in
readExtInfo, file-not-found — are not caught and escape as exceptions. -/
theorem inspection_notFound_reported (fs : FS) (p : String) (h : fs.exists p = false) :
    (readXpiInfo fs p).result = .ok (Result.from_error ("path " ++ p ++ " does not exist")) ∧
    parseExtManifest fs p = .ok (Result.from_error ("path " ++ p ++ " does not exist")) := by
  constructor
  · simp [readXpiInfo, h]
  · simp [parseExtManifest, h]

theorem inspection_notFound_reported_witness :
    (readXpiInfo ⟨[]⟩ "missing").result =
      .ok (Result.from_error "path missing does not exist") :=
  (inspection_notFound_reported ⟨[]⟩ "missing" rfl).1

/-- C6 (code bug): readExtInfo tags a directory "dir" as declared, but tags an
archive file "file", a value outside the declared union "dir" | "xpi" of
ExtInfo (the string reaches the field through an `as ExtInfo` cast). -/
def typeTagOf (t : Traced (Result ExtInfo)) : Option String :=
  match t.result with
  | .ok r => r.inner_data.map (fun e => e.type)
  | .error _ => none

theorem readExtInfo_type_tag_file :
    typeTagOf (readExtInfo fsXpiGood "addon.xpi") = some "file" ∧
    typeTagOf (readExtInfo fsGoodDir "src") = some "dir" ∧
    (("file" == "dir") || ("file" == "xpi")) = false := ⟨rfl, rfl, rfl⟩

/-- C7 counterexample: inspecting an archive with no manifest.json entry
opens the zip reader and returns the failure Result without ever reaching
`zipReader.close()`, in both readExtInfo and readXpiInfo. -/
theorem readExtInfo_missing_manifest_leaves_reader_open :
    (readExtInfo fsXpiNoManifest "addon.xpi").readerOpened = true ∧
    (readExtInfo fsXpiNoManifest "addon.xpi").readerClosed = false ∧
    (readXpiInfo fsXpiNoManifest "addon.xpi").readerOpened = true ∧
    (readXpiInfo fsXpiNoManifest "addon.xpi").readerClosed = false := ⟨rfl, rfl, rfl, rfl⟩

/-- C7 (amended): when inspecting an archive file, the reader is closed
exactly when a manifest.json entry is found (the close sits after the entry
read and before JSON.parse); on the missing-manifest path the failure Result
is returned while the reader stays open. -/
theorem reader_closed_iff_manifest_found (fs : FS) (p : String)
    (entries : List (String × ManifestDoc))
    (h : fs.lookup p = some (.file (.zip entries))) :
    (readExtInfo fs p).readerClosed =
      (entries.find? (fun en => en.1 == "manifest.json")).isSome ∧
    ((entries.find? (fun en => en.1 == "manifest.json")) = none →
      (readExtInfo fs p).result = .ok (Result.from_error "do not contain manifest.json")) := by
  unfold readExtInfo
  simp only [FS.stat, FS.readFile, FileData.zipEntries, h]
  cases hf : entries.find? (fun en => en.1 == "manifest.json") with
  | none => exact ⟨rfl, fun _ => rfl⟩
  | some en =>
    refine ⟨?_, fun hc => ?_⟩
    · cases hJ : JSON.parse en.2 with
      | error e => simp [hJ]
      | ok m =>
        cases hX : extractDetails_readExtInfo m with
        | error e => simp [hJ, hX]
        | ok det => simp [hJ, hX]
    · cases hc

theorem reader_closed_iff_manifest_found_witness :
    (readExtInfo fsXpiNoManifest "addon.xpi").readerClosed =
      (([("other.txt", ManifestDoc.malformed "x")].find?
        (fun en => en.1 == "manifest.json")).isSome) :=
  (reader_closed_iff_manifest_found fsXpiNoManifest "addon.xpi"
    [("other.txt", ManifestDoc.malformed "x")] rfl).1

/-- C8 (code bug): the extraction takes browser_specific_settings.gecko.id
first, falls back to applications.gecko.id when that is falsy, but when both
are absent the initialized empty-string default is overwritten and the
resulting id is JS undefined — a value distinct from the empty string. -/
theorem extract_id_undefined_when_both_absent :
    extractDetails_readExtInfo (.obj [("name", .str "myext"), ("version", .str "1.0")]) =
      .ok ⟨.undefined, .str "myext", .str "1.0"⟩ ∧
    extractDetails_readExtInfo
      (.obj [("browser_specific_settings", .obj [("gecko", .obj [("id", .str "a@b")])]),
             ("applications", .obj [("gecko", .obj [("id", .str "c@d")])])]) =
      .ok ⟨.str "a@b", .undefined, .undefined⟩ ∧
    extractDetails_readExtInfo
      (.obj [("applications", .obj [("gecko", .obj [("id", .str "c@d")])])]) =
      .ok ⟨.str "c@d", .undefined, .undefined⟩ ∧
    JSValue.isUndefined .undefined = true ∧ JSValue.isUndefined (.str "") = false :=
  ⟨rfl, rfl, rfl, rfl, rfl⟩

/-- C9 counterexample: the erased generic lets from_data be called with an
undefined payload (T including undefined), and the resulting Result answers
false to both is_ok and is_err — an observable third, empty state. -/
theorem result_from_data_undefined_empty_state :
    (Result.from_data none : Result ExtInfo).is_ok = false ∧
    (Result.from_data none : Result ExtInfo).is_err = false := ⟨rfl, rfl⟩

/-- C9 (amended): for every Result built by from_error, or by from_data with
a defined payload, exactly one of is_ok and is_err is true; only
from_data(undefined) escapes this dichotomy. -/
theorem result_states_exclusive_exhaustive {α : Type} (d : α) (e : JSError) :
    ((Result.from_data (some d)).is_ok = true ∧
     (Result.from_data (some d)).is_err = false) ∧
    ((Result.from_error e : Result α).is_ok = false ∧
     (Result.from_error e : Result α).is_err = true) := ⟨⟨rfl, rfl⟩, ⟨rfl, rfl⟩⟩

/- ### packageXpi lemmas and claim theorems -/

/-- Helper: the single write effect of packageXpi happens exactly when the
walk succeeds and an identifier is derived, and then targets
`(targetFolder || cwd)/<id>.xpi` with the walked entries. -/
theorem packageXpi_written_eq (fs : FS) (src : String) (tf : Option String) (cwd : String) :
    (packageXpi fs src tf cwd).written =
      (match fs.walkFiles src, derivedId fs src with
       | .ok files, some id => some (pathJoin (jsOrStr tf cwd) (id ++ ".xpi"), files)
       | _, _ => none) := by
  unfold packageXpi derivedId
  cases h1 : fs.walkFiles src with
  | error e => simp [h1]
  | ok files =>
    cases h2 : (readExtInfo fs src).result with
    | error e => simp [h1, h2]
    | ok r =>
      cases h3 : r.is_err with
      | true => simp [h1, h2, h3]
      | false =>
        cases h4 : r.inner_data with
        | none => simp [h1, h2, h3, h4]
        | some ext =>
          cases h5 : getID ext.info with
          | none => simp [h1, h2, h3, h4, h5]
          | some s =>
            by_cases hs : s = ""
            · simp [h1, h2, h3, h4, h5, hs]
            · simp [h1, h2, h3, h4, h5, hs]

/-- C5: whenever packaging cannot derive a usable identifier — inspection
throws or returns a failure Result, the data slot is undefined, or getID
yields a falsy value — packageXpi performs no write at all: the in-memory
archive is discarded and Deno.writeFile is never reached. -/
theorem packageXpi_no_write_without_identifier (fs : FS) (src : String)
    (tf : Option String) (cwd : String) (h : derivedId fs src = none) :
    (packageXpi fs src tf cwd).written = none := by
  rw [packageXpi_written_eq, h]
  cases fs.walkFiles src with
  | error e => rfl
  | ok files => rfl

theorem packageXpi_no_write_without_identifier_witness :
    derivedId fsEmptyDir "src" = none ∧
    (packageXpi fsEmptyDir "src" none ".").written = none :=
  ⟨rfl, packageXpi_no_write_without_identifier fsEmptyDir "src" none "." rfl⟩

/-- C4 counterexample: packageXpi returns no Result — the resolved value of a
run that wrote the archive equals that of a run whose identifier derivation
failed (both are undefined); the output path appears only in the write
effect, never in the returned value. -/
theorem packageXpi_returns_undefined :
    (packageXpi fsGoodDir "src" none ".").result = .ok () ∧
    (packageXpi fsGoodDir "src" none ".").written.map (fun w => w.1) =
      some "./ext@example.com.xpi" ∧
    (packageXpi fsEmptyDir "src" none ".").result = .ok () ∧
    (packageXpi fsEmptyDir "src" none ".").written = none := ⟨rfl, rfl, rfl, rfl⟩

/-- C4 (amended): packageXpi resolves with undefined in every non-throwing
case; on the success path it writes the archive to
`(targetFolder || cwd)/<derived id>.xpi` and the output path is communicated
only through that filesystem effect, while inspection failure or failed
identifier derivation returns early, silently and without writing. -/
theorem packageXpi_success_write (fs : FS) (src : String) (tf : Option String)
    (cwd : String) (files : List (String × FileData)) (id : String)
    (hw : fs.walkFiles src = .ok files) (hd : derivedId fs src = some id) :
    (packageXpi fs src tf cwd).written =
      some (pathJoin (jsOrStr tf cwd) (id ++ ".xpi"), files) ∧
    (packageXpi fs src tf cwd).result = .ok () := by
  constructor
  · rw [packageXpi_written_eq, hw, hd]
  · unfold packageXpi
    unfold derivedId at hd
    cases h2 : (readExtInfo fs src).result with
    | error e => simp [h2] at hd
    | ok r =>
      simp only [h2] at hd
      cases h3 : r.is_err with
      | true => simp [h3] at hd
      | false =>
        simp only [h3, reduceIte] at hd
        cases h4 : r.inner_data with
        | none => simp [h4] at hd
        | some ext =>
          simp only [h4] at hd
          cases h5 : getID ext.info with
          | none => simp [h5] at hd
          | some s =>
            simp only [h5] at hd
            by_cases hs : s = ""
            · simp [hs] at hd
            · simp [hw, h2, h3, h4, h5, hs]

theorem packageXpi_success_write_witness :
    (packageXpi fsGoodDir "src" none ".").written =
      some (pathJoin (jsOrStr none ".") ("ext@example.com" ++ ".xpi"),
        [("manifest.json", FileData.doc (.wellFormed goodManifest)),
         ("content.js", FileData.doc (.malformed "console"))]) :=
  (packageXpi_success_write fsGoodDir "src" none "."
    [("manifest.json", FileData.doc (.wellFormed goodManifest)),
     ("content.js", FileData.doc (.malformed "console"))] "ext@example.com" rfl rfl).1

/- ### C10: the three extraction pipelines agree -/

/-- Forget the shape tag of an ExtInfo outcome, for comparison with the
AddonInfo pipelines. -/
def tripleOfExt (t : Thrown (Result ExtInfo)) : Thrown (Result AddonInfo) :=
  t.map (fun r => ⟨r.inner_data.map (fun e => e.info), r.error⟩)

/-- C10: for the same manifest document text, inspecting a directory holding
it, an archive containing it, or the document file directly yields the same
resolved AddonInfo triple (and the same thrown exception when JSON.parse or
the extraction throws): the three verbatim extraction copies are equivalent. -/
theorem manifest_resolution_agrees (d : ManifestDoc) :
    tripleOfExt (readExtInfo ⟨[("a", .dir [("manifest.json", .doc d)])]⟩ "a").result =
      (readXpiInfo ⟨[("a", .file (.zip [("manifest.json", d)]))]⟩ "a").result ∧
    (readXpiInfo ⟨[("a", .file (.zip [("manifest.json", d)]))]⟩ "a").result =
      parseExtManifest ⟨[("a", .file (.doc d))]⟩ "a" := by
  cases d with
  | malformed t => exact ⟨rfl, rfl⟩
  | wellFormed v =>
    have h1 : extractDetails_readXpiInfo = extractDetails_readExtInfo := rfl
    have h2 : extractDetails_parseExtManifest = extractDetails_readExtInfo := rfl
    cases hX : extractDetails_readExtInfo v with
    | error e =>
      constructor
      · simp [readExtInfo, readXpiInfo, tripleOfExt, FS.stat, FS.lookup, FS.exists,
          FS.readDirFile, FS.readFile, FileData.asText, FileData.zipEntries, JSON.parse,
          Except.map, h1, hX]
      · simp [readXpiInfo, parseExtManifest, FS.stat, FS.lookup, FS.exists, FS.readFile,
          FileData.asText, FileData.zipEntries, JSON.parse, h1, h2, hX]
    | ok det =>
      constructor
      · simp [readExtInfo, readXpiInfo, tripleOfExt, FS.stat, FS.lookup, FS.exists,
          FS.readDirFile, FS.readFile, FileData.asText, FileData.zipEntries, JSON.parse,
          Except.map, h1, hX, Result.from_data]
      · simp [readXpiInfo, parseExtManifest, FS.stat, FS.lookup, FS.exists, FS.readFile,
          FileData.asText, FileData.zipEntries, JSON.parse, h1, h2, hX, Result.from_data]

/- ### Witnesses instantiating the universally quantified claim theorems -/

theorem getID_two_tier_precedence_witness :
    getID ⟨.str "", .str "myext", .str "1"⟩ =
      (if ("" : String) ≠ "" then (if isValidAOMAddonId "" then some "" else none)
       else if ("myext" : String) ≠ "" then
         (if isValidAOMAddonId ("@" ++ "myext") then some ("@" ++ "myext") else none)
       else none) :=
  getID_two_tier_precedence "" "myext" "1"

theorem isValidAOMAddonId_characterization_witness :
    isValidAOMAddonId "@myext" = true ↔
      (UUIDShape "@myext".data ∨ EmailShape "@myext".data) :=
  isValidAOMAddonId_characterization.1 "@myext"

theorem result_states_exclusive_exhaustive_witness :
    ((Result.from_data (some (0 : Nat))).is_ok = true ∧
     (Result.from_data (some (0 : Nat))).is_err = false) ∧
    ((Result.from_error "boom" : Result Nat).is_ok = false ∧
     (Result.from_error "boom" : Result Nat).is_err = true) :=
  result_states_exclusive_exhaustive (0 : Nat) "boom"

theorem manifest_resolution_agrees_witness :
    tripleOfExt (readExtInfo
        ⟨[("a", .dir [("manifest.json", .doc (.malformed "x"))])]⟩ "a").result =
      (readXpiInfo
        ⟨[("a", .file (.zip [("manifest.json", ManifestDoc.malformed "x")]))]⟩ "a").result :=
  (manifest_resolution_agrees (.malformed "x")).1
